import Mathlib

/-!
Verification of the Azguard wallet client (session-store core, version
checker, event-handler registry, ShieldSwap protocol adapter) against its
natural-language specification, via a shallow embedding of the TypeScript
sources (src/version.ts, src/client.ts, the ShieldSwap provider, and
src/event-handlers.ts).
-/

set_option maxRecDepth 2000

/-! ## Data model (from azguardwallet/types, as used by the client) -/

/-- A permission grant: optional chain / method / event lists
(`DappPermissions` in the source; absent field = `undefined`). -/
structure DappPermissions where
  chains : Option (List String)
  methods : Option (List String)
  events : Option (List String)
deriving DecidableEq, Repr

/-- A wallet session: id, approved accounts, approved permission grants
(`DappSession` in the source). -/
structure DappSession where
  id : String
  accounts : List String
  permissions : List DappPermissions
deriving DecidableEq, Repr

/-! ## Version checker (src/version.ts)

The client's own version comes from `package.json`; it is modelled as the
`clientVersion` parameter.  JS `version.split(".")` with the one-character
separator `"."` is embedded as character-level splitting on `'.'`. -/

/-- JS `s.split(".")` on the character sequence of `s`:
splitting on `'.'`, where `"".split(".") = [""]`. -/
def splitDot : List Char → List (List Char)
  | [] => [[]]
  | c :: cs =>
    let r := splitDot cs
    if c = '.' then [] :: r
    else
      match r with
      | [] => [[c]]
      | h :: t => (c :: h) :: t

/-- The split `version.split(".")` as a list of strings. -/
def jsSplit (s : String) : List String :=
  (splitDot s.data).map (fun l => String.mk l)

/-- Embedding of `isCompatible` (src/version.ts): destructure the first two segments of
each split (missing segments are `undefined`, i.e. `none`) and compare with
JS `===` (which is `none == none = true` for two missing segments). -/
def isCompatible (clientVersion version : String) : Bool :=
  ((jsSplit version).get? 0 == (jsSplit clientVersion).get? 0) &&
  ((jsSplit version).get? 1 == (jsSplit clientVersion).get? 1)

/-! ## EventHandlers registry (src/event-handlers.ts)

Handlers live in a JS `Set` keyed on callback identity; we model callback
identities as natural numbers kept in insertion order (a JS `Set` iterates
in insertion order and never holds duplicates), and a callback's behaviour
as a separate function from identity and payload to `Except E Unit`
(`Except.error` = the callback throws).  `dispatch` runs every handler
inside `try { } catch { }`: the per-handler outcome is recorded in the
returned invocation trace and never aborts the iteration; the trace type
itself (no top-level `Except`) models that `dispatch` never throws. -/

structure EventHandlers where
  handlers : List Nat
deriving DecidableEq, Repr

/-- JS `Set.add`: membership-idempotent insertion. -/
def EventHandlers.addHandler (r : EventHandlers) (h : Nat) : EventHandlers :=
  if h ∈ r.handlers then r else ⟨r.handlers ++ [h]⟩

/-- JS `Set.delete`: removing an unregistered callback is a no-op. -/
def EventHandlers.removeHandler (r : EventHandlers) (h : Nat) : EventHandlers :=
  ⟨r.handlers.filter (fun x => x ≠ h)⟩

/-- Embedding of `dispatch(payload)`: `for (const handler of this.#handlers) { try { handler(payload) } catch {} }`.
Returns the ordered invocation trace (handler identity, contained outcome). -/
def EventHandlers.dispatch {P E : Type} (r : EventHandlers)
    (behavior : Nat → P → Except E Unit) (payload : P) :
    List (Nat × Except E Unit) :=
  r.handlers.map (fun h => (h, behavior h payload))

/-- A registry-mutation call against an `EventHandlers` instance. -/
inductive RegOp
  | add (h : Nat)
  | remove (h : Nat)
deriving DecidableEq, Repr

/-- Interpretation of one registry-mutation call. -/
def applyRegOp (r : EventHandlers) (op : RegOp) : EventHandlers :=
  match op with
  | .add h => r.addHandler h
  | .remove h => r.removeHandler h

/-- A registry as built up by an arbitrary sequence of
`addHandler` / `removeHandler` calls on a fresh instance. -/
def buildRegistry (ops : List RegOp) : EventHandlers :=
  ops.foldl applyRegOp ⟨[]⟩

/-! ## Client state (src/client.ts, `AzguardClient`)

`#rpc` and `#session` are the two private fields; `localStorage` is the
scope-keyed persisted store.  For the init/reachability analysis we also
track which phase of `#init` the client is in and whether the channel push
handlers have been subscribed (`client.on(...)` already ran). -/

/-- Where the client is inside `#init`:
`start` = constructor ran, `#init` not yet past the wallet lookup;
`awaiting` = push handlers subscribed, `get_session` request in flight
(the `await` window before `this.#rpc = client`);
`ready` = `#init` finished, the instance has been handed to the consumer. -/
inductive Phase
  | start
  | awaiting
  | ready
deriving DecidableEq, Repr

structure ClientState where
  phase : Phase
  rpc : Bool
  subscribed : Bool
  session : Option DappSession
  storage : List (String × String)
deriving DecidableEq, Repr

/-- JS `localStorage.setItem` (last write wins). -/
def setItem (st : List (String × String)) (k v : String) : List (String × String) :=
  (k, v) :: st.filter (fun e => e.1 ≠ k)

/-- JS `localStorage.removeItem`. -/
def removeItem (st : List (String × String)) (k : String) : List (String × String) :=
  st.filter (fun e => e.1 ≠ k)

/-- JS `localStorage.getItem` (null = `none`). -/
def getItem (st : List (String × String)) (k : String) : Option String :=
  (st.find? (fun e => e.1 == k)).map (fun e => e.2)

/-- The storage key `azguard:session:<scope>`. -/
def sessionKey (scope : String) : String :=
  "azguard:session:" ++ scope

namespace AzguardClient

/-- Getter `get connected(): boolean { return !!this.#session; }` -/
def connected (s : ClientState) : Bool :=
  s.session.isSome

/-- Getter `get accounts() { return this.#session?.accounts ?? []; }` -/
def accounts (s : ClientState) : List String :=
  (s.session.map DappSession.accounts).getD []

/-- Getter `get permissions() { return this.#session?.permissions ?? []; }` -/
def permissions (s : ClientState) : List DappPermissions :=
  (s.session.map DappSession.permissions).getD []

end AzguardClient

/-! ## Session reconciliation (`#onSessionUpdated`, `#onSessionClosed`) -/

/-- JS `Array.prototype.some` with the element-index callback. -/
def someIdx {α : Type} (f : α → Nat → Bool) : List α → Nat → Bool
  | [], _ => false
  | x :: xs, i => f x i || someIdx f xs (i + 1)

/-- JS `xs?.some(f)`: optional chaining; `undefined` is falsy. -/
def jsSomeIdx {α : Type} (o : Option (List α)) (f : α → Nat → Bool) : Bool :=
  match o with
  | none => false
  | some l => someIdx f l 0

/-- JS `(xs?.length ?? 0)`. -/
def optLen {α : Type} (o : Option (List α)) : Nat :=
  (o.map List.length).getD 0

/-- One field comparison inside `#onSessionUpdated`:
`(p.f?.length ?? 0) !== (q.f?.length ?? 0) || p.f?.some((c, j) => c !== q.f![j])`.
The non-null assertion `q.f!` is only reached when the two lengths agree and
`p.f` is a non-empty array, so `q.f` is then a defined array of the same
length; we embed it as `q.f ?? []`, and an out-of-range JS index (which
yields `undefined`) as `List.get?`. -/
def fieldChanged (o n : Option (List String)) : Bool :=
  (optLen o != optLen n) ||
  jsSomeIdx o (fun c j => some c != (n.getD []).get? j)

/-- The per-index permission comparison of `#onSessionUpdated`
(`session.permissions[i]` is passed as `q`). -/
def permChangedAt (p q : DappPermissions) : Bool :=
  fieldChanged p.chains q.chains ||
  fieldChanged p.methods q.methods ||
  fieldChanged p.events q.events

/-- The flag `permissionsChanged` as computed by `#onSessionUpdated`.  The indexed
access `session.permissions[i]` is only reached when the lengths agree
(short-circuit `||`), so the junk default of `List.getD` is never the
compared value. -/
def permissionsChangedCode (old new' : List DappPermissions) : Bool :=
  (old.length != new'.length) ||
  someIdx (fun p i => permChangedAt p (new'.getD i ⟨none, none, none⟩)) old 0

/-- The flag `accountsChanged` as computed by `#onSessionUpdated`:
`this.accounts.length !== session.accounts.length || this.accounts.some((a, i) => a !== session.accounts[i])`. -/
def accountsChangedCode (old new' : List String) : Bool :=
  (old.length != new'.length) ||
  someIdx (fun a i => some a != new'.get? i) old 0

/-- Observable effects of the client, in program order.  The payload of
`disconnected` records the value of `connected` that a subscriber reading
it during the (synchronous) dispatch observes; `sessionCleared` and
`storageRemoved` mark the two state mutations of `#onSessionClosed`. -/
inductive Event
  | connectedEvt
  | disconnected (connectedSeen : Bool)
  | accountsChanged (accounts : List String)
  | permissionsChanged (perms : List DappPermissions)
  | sessionCleared
  | storageRemoved (key : String)
deriving DecidableEq, Repr

/-- Embedding of `#onSessionUpdated(session)`: compute both change flags against the old
state, replace the stored session unconditionally, then dispatch the
permissions-changed and accounts-changed events (in that order, each only
if its flag is set) with the getters evaluated on the already-replaced
state. -/
def onSessionUpdated (s : ClientState) (ns : DappSession) : ClientState × List Event :=
  let permissionsChanged := permissionsChangedCode (AzguardClient.permissions s) ns.permissions
  let accountsChanged := accountsChangedCode (AzguardClient.accounts s) ns.accounts
  let s' : ClientState := { s with session := some ns }
  (s',
    (if permissionsChanged then [Event.permissionsChanged (AzguardClient.permissions s')] else []) ++
    (if accountsChanged then [Event.accountsChanged (AzguardClient.accounts s')] else []))

/-- Embedding of `#onSessionClosed()`: dispatch the disconnected event (subscribers run
synchronously against the pre-clear state), then `this.#session = undefined`,
then `localStorage.removeItem` for this scope — in exactly that order. -/
def onSessionClosed (scope : String) (s : ClientState) : ClientState × List Event :=
  let e1 := Event.disconnected (AzguardClient.connected s)
  let s1 : ClientState := { s with session := none }
  let s2 : ClientState := { s1 with storage := removeItem s1.storage (sessionKey scope) }
  (s2, [e1, Event.sessionCleared, Event.storageRemoved (sessionKey scope)])

/-! ## Operations, results and RPC requests -/

/-- A serialized function call of the ShieldSwap RPC spec
(`{to, selector, args}`). -/
structure SerializedFunctionCall where
  toAddr : String
  selector : String
  args : List String
deriving DecidableEq, Repr

/-- An authorization-witness entry of `aztec_sendTransaction`. -/
structure AuthWitness where
  caller : String
  action : SerializedFunctionCall
deriving DecidableEq, Repr

/-- Actions composed inside operations (`AddPrivateAuthwitAction` with its
encoded-call content, and `EncodedCallAction`). -/
inductive OpAction
  | addPrivateAuthwit (caller toAddr selector : String) (args : List String)
  | encodedCall (toAddr selector : String) (args : List String)
deriving DecidableEq, Repr

/-- Operations submitted through `execute`. -/
inductive Operation
  | sendTransaction (account : String) (actions : List OpAction)
  | simulateViews (account : String) (calls : List OpAction)
deriving DecidableEq, Repr

/-- Result type `SimulateViewsResult`: per-call encoded and decoded value arrays. -/
structure SimulateViewsResult where
  encoded : List (List String)
  decoded : List (List String)
deriving DecidableEq, Repr

/-- The `result` payload carried by an `OkResult`. -/
inductive ResultPayload
  | txHash (h : String)
  | simulate (r : SimulateViewsResult)
deriving DecidableEq, Repr

/-- Tagged operation results (`OkResult` / `FailedResult` / `SkippedResult`). -/
inductive OperationResult
  | ok (result : ResultPayload)
  | failed (error : String)
  | skipped
deriving DecidableEq, Repr

/-- Requests the client sends over the bound RPC channel. -/
inductive Request
  | executeReq (sessionId : String) (operations : List Operation)
  | closeSessionReq (sessionId : String)
deriving DecidableEq, Repr

/-- Errors surfaced to the caller (thrown JS exceptions).  `typeError`
models the runtime `TypeError` of reading a property of `undefined`. -/
inductive ClientError
  | notInstalled
  | notConnected
  | unauthorized
  | operationFailed (msg : Option String)
  | simulationFailed (msg : Option String)
  | unsupportedMethod
  | typeError
deriving DecidableEq, Repr

/-- The bound channel's response behaviour for `execute` requests: given the
session id and the operation batch, the ordered result batch the wallet
returns. -/
abbrev Channel := String → List Operation → List OperationResult

namespace AzguardClient

/-- Embedding of `execute(operations)`: throw "Azguard Wallet is not installed" when no
channel is bound, then "Azguard Wallet is not connected" when no session is
held (both before any channel traffic); otherwise a single `execute` request
carrying the session id and the batch, whose response is returned unchanged.
The first component is the ordered trace of channel requests issued. -/
def execute (s : ClientState) (chan : Channel) (operations : List Operation) :
    List Request × Except ClientError (List OperationResult) :=
  if !s.rpc then
    ([], .error .notInstalled)
  else
    match s.session with
    | none => ([], .error .notConnected)
    | some sess =>
      ([Request.executeReq sess.id operations], .ok (chan sess.id operations))

/-- Embedding of `disconnect()`: return silently when no session is held; otherwise
`this.#rpc!.request("close_session", this.#session.id)`.  The non-null
assertion makes the channel access unchecked: result `none` models the
runtime `TypeError` of calling `request` on `undefined`.  No local state is
mutated on any path, so the unchanged state is returned. -/
def disconnect (s : ClientState) : Option (List Request × ClientState) :=
  match s.session with
  | none => some ([], s)
  | some sess =>
    if s.rpc then some ([Request.closeSessionReq sess.id], s) else none

/-- The state mutation performed when a `connect` request resolves with a
new session: store it in memory and persist its id under the scope key
(the connected-event dispatch follows). -/
def connectApply (scope : String) (s : ClientState) (ns : DappSession) :
    ClientState × List Event :=
  ({ s with session := some ns,
            storage := setItem s.storage (sessionKey scope) ns.id },
   [Event.connectedEvt])

end AzguardClient

/-! ## ShieldSwap protocol adapter (`ShieldSwapAzguardProvider`) -/

/-- Matching in `this.#azguard.accounts.find((x) => x.endsWith(request.from))`:
JS `String.prototype.endsWith`, embedded on character sequences. -/
def jsEndsWith (s suffix : String) : Bool :=
  suffix.data.isSuffixOf s.data

/-- Account resolution shared by `#aztec_sendTransaction` and `#aztec_call`:
first account (in list order) whose qualified identifier ends with the
requested bare address. -/
def resolveAccount (accountList : List String) (fromAddr : String) : Option String :=
  accountList.find? (fun x => jsEndsWith x fromAddr)

/-- Reading `.encoded` off the (unchecked) `OkResult<SimulateViewsResult>`
cast: the TS cast is erased at runtime, so a payload of a different shape
yields the JS `undefined` (`none`), not an error. -/
def payloadEncoded : ResultPayload → Option (List (List String))
  | .simulate r => some r.encoded
  | _ => none

/-- Embedding of `#aztec_call(request)`: resolve `request.from` by suffix match (throw
"Unauthorized account" on no match), build one `simulate_views` operation
with one encoded-call entry per supplied call, submit it through the core's
`execute`, throw "Simulation failed: ..." when the single result's status
is not "ok" (the skipped result has no `error` field, hence message
`none`), otherwise return `result.result.encoded`.  An empty result batch
makes `result.status` a read off `undefined`: `typeError`. -/
def aztec_call (s : ClientState) (chan : Channel) (fromAddr : String)
    (calls : List SerializedFunctionCall) :
    List Request × Except ClientError (Option (List (List String))) :=
  match resolveAccount (AzguardClient.accounts s) fromAddr with
  | none => ([], .error .unauthorized)
  | some account =>
    let op := Operation.simulateViews account
      (calls.map (fun x => OpAction.encodedCall x.toAddr x.selector x.args))
    match AzguardClient.execute s chan [op] with
    | (reqs, .error e) => (reqs, .error e)
    | (reqs, .ok results) =>
      match results.head? with
      | none => (reqs, .error .typeError)
      | some (.ok p) => (reqs, .ok (payloadEncoded p))
      | some (.failed e) => (reqs, .error (.simulationFailed (some e)))
      | some .skipped => (reqs, .error (.simulationFailed none))

/-- Reading `.result` off the `OkResult<SendTransactionResult>` cast: the
cast is erased at runtime, so the raw payload is returned as-is. -/
def aztec_sendTransaction (s : ClientState) (chan : Channel) (fromAddr : String)
    (calls : List SerializedFunctionCall) (authWitnesses : List AuthWitness) :
    List Request × Except ClientError ResultPayload :=
  match resolveAccount (AzguardClient.accounts s) fromAddr with
  | none => ([], .error .unauthorized)
  | some account =>
    let actions :=
      authWitnesses.map (fun x =>
        OpAction.addPrivateAuthwit x.caller x.action.toAddr x.action.selector x.action.args) ++
      calls.map (fun x => OpAction.encodedCall x.toAddr x.selector x.args)
    match AzguardClient.execute s chan [Operation.sendTransaction account actions] with
    | (reqs, .error e) => (reqs, .error e)
    | (reqs, .ok results) =>
      match results.head? with
      | none => (reqs, .error .typeError)
      | some (.ok p) => (reqs, .ok p)
      | some (.failed e) => (reqs, .error (.operationFailed (some e)))
      | some .skipped => (reqs, .error (.operationFailed none))

/-! ## Install-detection poll (`getAzguardObject`)

`setInterval` with a fixed 10ms tick; on each tick the callback first does
`rest -= 10`, then resolves with the object if `window.azguard` is present,
else resolves "absent" once `rest <= 0`.  `present k` tells whether
`window.azguard` exists at the k-th tick (k = 1 fires 10ms after the call);
the result is the resolving tick index together with the found flag, so the
elapsed time at resolution is 10ms times the tick index. -/

def pollLoop (present : Nat → Bool) (rest : Int) (k : Nat) : Nat × Bool :=
  let r := rest - 10
  if present k then (k, true)
  else if r ≤ 0 then (k, false)
  else pollLoop present r (k + 1)
termination_by rest.toNat
decreasing_by
  simp only [not_le] at *
  omega

/-- Embedding of `getAzguardObject(timeout)`, started at the first tick. -/
def getAzguardObject (present : Nat → Bool) (timeout : Int) : Nat × Bool :=
  pollLoop present timeout 1

/-- The tick index at which the poll gives up when the object never
appears. -/
def pollTicks (timeout : Int) : Nat :=
  if timeout ≤ 10 then 1 else 1 + pollTicks (timeout - 10)
termination_by timeout.toNat
decreasing_by
  simp only [not_le] at *
  omega

/-! ## Client lifecycle as a transition system

JS is single-threaded: state only changes at `await` boundaries or inside a
synchronous handler.  `#init` has exactly two suspension points — the
wallet lookup (before the push handlers exist) and the `get_session`
request (after `client.on(...)` but before `this.#rpc = client`).  The
steps below are the atomic segments between suspensions, plus the two push
handlers (firable whenever they are subscribed) and the consumer-driven
calls, which exist only once `create` has resolved (phase `ready`). -/

inductive Step (scope : String) : ClientState → ClientState → Prop
  /-- Step of `#init` where `getAzguardObject` yields `undefined`: no channel, no
  subscription, the restore block is skipped. -/
  | initNoWallet (s : ClientState) :
      s.phase = .start →
      Step scope s { s with phase := .ready }
  /-- Step of `#init` with the wallet found and no persisted session id: subscribe
  the push handlers and run straight through `this.#rpc = client;
  this.#session = undefined` with no intervening `await`. -/
  | initWalletNoStored (s : ClientState) :
      s.phase = .start →
      getItem s.storage (sessionKey scope) = none →
      Step scope s { s with phase := .ready, subscribed := true, rpc := true, session := none }
  /-- Step of `#init` with the wallet found and a persisted session id: subscribe
  the push handlers, then suspend on `client.request("get_session", ...)`
  with `#rpc` still unassigned. -/
  | initStoredBegin (s : ClientState) (sid : String) :
      s.phase = .start →
      getItem s.storage (sessionKey scope) = some sid →
      Step scope s { s with phase := .awaiting, subscribed := true }
  /-- The `get_session` response arrives (`r = none` models both `null` and
  a dead stored id): `this.#rpc = client; this.#session = session`,
  overwriting anything a push wrote during the window. -/
  | initSessionResponse (s : ClientState) (r : Option DappSession) :
      s.phase = .awaiting →
      Step scope s { s with phase := .ready, rpc := true, session := r }
  /-- A `session_updated` push: possible whenever the handlers are
  subscribed. -/
  | pushSessionUpdated (s : ClientState) (ns : DappSession) :
      s.subscribed = true →
      Step scope s (onSessionUpdated s ns).1
  /-- A `session_closed` push: possible whenever the handlers are
  subscribed. -/
  | pushSessionClosed (s : ClientState) :
      s.subscribed = true →
      Step scope s (onSessionClosed scope s).1
  /-- A consumer `connect` call resolving: the channel check passed when the
  call was issued (consumer calls exist only in phase `ready`), and `#rpc`
  is never unassigned, so it still holds at resolution. -/
  | connectDone (s : ClientState) (ns : DappSession) :
      s.phase = .ready →
      s.rpc = true →
      Step scope s (AzguardClient.connectApply scope s ns).1
  /-- A consumer `disconnect` call: mutates no local state. -/
  | disconnectDone (s : ClientState) :
      s.phase = .ready →
      Step scope s s

/-- States reachable from a fresh `AzguardClient` (constructor just ran,
`localStorage` holding `init`). -/
inductive Reachable (scope : String) (init : List (String × String)) : ClientState → Prop
  | base : Reachable scope init ⟨.start, false, false, none, init⟩
  | step {s t : ClientState} :
      Reachable scope init s → Step scope s t → Reachable scope init t

/-- The inductive invariant of the client lifecycle: before `#init` runs
nothing is set; once `create` has resolved (phase `ready`), a held session
— and likewise a live push subscription — implies a bound channel. -/
def ClientInv (st : ClientState) : Prop :=
  (st.phase = .start → st.rpc = false ∧ st.subscribed = false ∧ st.session = none) ∧
  (st.phase = .ready →
    (st.session.isSome = true → st.rpc = true) ∧ (st.subscribed = true → st.rpc = true))

/-! ## Sample data shared by witnesses and counterexamples -/

-- Decidable equality for `Except`, used to evaluate results concretely.
deriving instance DecidableEq for Except

def sessA : DappSession :=
  ⟨"sid-1", ["aztec:1337:0xabc"], [⟨some ["aztec:1337"], some ["send_transaction"], none⟩]⟩

def sessB : DappSession := ⟨"sid-2", ["aztec:1337:0xdef"], []⟩

def stA : ClientState := ⟨.ready, true, true, some sessA, []⟩

def chanA : Channel :=
  fun _ _ => [OperationResult.ok (ResultPayload.simulate ⟨[["enc"]], [["dec"]]⟩)]

def callA : SerializedFunctionCall := ⟨"0x2", "0x3", []⟩

/-- The fresh-client storage used by the C9 counterexample: a stale session
id persisted under the default scope, which makes init take the
get_session-restore path. -/
def initStorageC9 : List (String × String) := [("azguard:session:default", "sid-0")]

/-- The state the C9 counterexample reaches: init is awaiting the
get_session response (push handlers subscribed, #rpc still unassigned)
when a session_updated push stores a session. -/
def badStateC9 : ClientState := ⟨.awaiting, false, true, some sessB, initStorageC9⟩

/-! ## Spec-side comparison predicates (§4.3 reconciliation, written from
the spec's words, to be compared with the code's computed flags) -/

/-- An optional list field read as a list (absence = empty). -/
def normList (o : Option (List String)) : List String :=
  o.getD []

/-- Spec §4.3: two permission grants agree positionally when their chain,
method and event lists agree element-wise in order. -/
def permEqSpec (p q : DappPermissions) : Bool :=
  (normList p.chains == normList q.chains) &&
  (normList p.methods == normList q.methods) &&
  (normList p.events == normList q.events)

/-- Spec §4.3: `permissionsChanged` — lengths differ, or some index holds
grants that disagree. -/
def permissionsDifferSpec (old new' : List DappPermissions) : Bool :=
  (old.length != new'.length) ||
  (old.zip new').any (fun pq => ! permEqSpec pq.1 pq.2)

/-! ## Helper lemmas: indexed `some` versus structural comparison -/

/-- Element-wise disagreement of a list with the same-length front of
another (a shorter second list always disagrees). -/
def prefixMismatch : List String → List String → Bool
  | [], _ => false
  | _ :: _, [] => true
  | c :: l, d :: m => (c != d) || prefixMismatch l m

theorem get?_eq_head?_drop {α : Type} (full : List α) :
    ∀ k : Nat, full.get? k = (full.drop k).head? := by
  induction full with
  | nil => intro k; cases k <;> rfl
  | cons a l ih => intro k; cases k with
    | zero => rfl
    | succ k => simp [ih k]

theorem drop_cons_succ {α : Type} {full : List α} {d : α} {m : List α} :
    ∀ {k : Nat}, full.drop k = d :: m → full.drop (k + 1) = m := by
  intro k h
  have : full.drop (k + 1) = (full.drop k).drop 1 := by
    rw [List.drop_drop, Nat.add_comm]
  rw [this, h]
  rfl

theorem someIdx_getNe (full : List String) :
    ∀ (l m : List String) (k : Nat), full.drop k = m →
      someIdx (fun c j => some c != full.get? j) l k = prefixMismatch l m := by
  intro l
  induction l with
  | nil => intro m k _; rfl
  | cons c l ih =>
    intro m k hm
    cases m with
    | nil =>
      have hget : full.get? k = none := by
        rw [get?_eq_head?_drop, hm]; rfl
      rw [show someIdx (fun c j => some c != full.get? j) (c :: l) k
            = ((some c != full.get? k) ||
               someIdx (fun c j => some c != full.get? j) l (k + 1)) from rfl,
         hget]
      simp [prefixMismatch, bne]
    | cons d m' =>
      have hget : full.get? k = some d := by
        rw [get?_eq_head?_drop, hm]; rfl
      have hdrop : full.drop (k + 1) = m' := drop_cons_succ hm
      simp only [someIdx, prefixMismatch, hget, ih m' (k + 1) hdrop]
      cases hcd : (c == d) <;> simp [bne, hcd]

theorem lenNe_or_prefixMismatch :
    ∀ l m : List String, ((l.length != m.length) || prefixMismatch l m) = (l != m) := by
  intro l
  induction l with
  | nil =>
    intro m
    cases m with
    | nil => rfl
    | cons d m' => simp [prefixMismatch, bne]
  | cons c l ih =>
    intro m
    cases m with
    | nil => simp [prefixMismatch, bne]
    | cons d m' =>
      have hlen : ((c :: l).length != (d :: m').length) = (l.length != m'.length) := by
        simp [bne]
      rw [prefixMismatch, hlen]
      rw [show ((c :: l) != (d :: m')) = ((c != d) || (l != m')) by
        cases hcd : (c == d) <;> simp [bne, hcd]]
      rw [← ih m']
      cases hcd : (c != d) <;> cases h1 : (l.length != m'.length) <;>
        simp [hcd, h1, Bool.or_comm, Bool.or_assoc, Bool.or_left_comm]

theorem fieldChanged_eq (o n : Option (List String)) :
    fieldChanged o n = (normList o != normList n) := by
  cases o with
  | none =>
    cases n with
    | none => rfl
    | some m =>
      cases m with
      | nil => rfl
      | cons d m' => simp [fieldChanged, optLen, jsSomeIdx, normList, bne]
  | some l =>
    have hopt : optLen n = (normList n).length := by
      cases n <;> rfl
    have hsome :
        someIdx (fun c j => some c != (n.getD []).get? j) l 0 = prefixMismatch l (normList n) :=
      someIdx_getNe (normList n) l (normList n) 0 rfl
    calc fieldChanged (some l) n
        = ((l.length != (normList n).length) || prefixMismatch l (normList n)) := by
          rw [show fieldChanged (some l) n
                = ((optLen (some l) != optLen n) ||
                   someIdx (fun c j => some c != (n.getD []).get? j) l 0) from rfl]
          rw [show optLen (some l) = l.length from rfl, hopt, hsome]
      _ = ((some l).getD [] != normList n) := by rw [lenNe_or_prefixMismatch]; rfl
      _ = (normList (some l) != normList n) := rfl

theorem permChangedAt_eq (p q : DappPermissions) :
    permChangedAt p q = ! permEqSpec p q := by
  rw [permChangedAt, permEqSpec, fieldChanged_eq, fieldChanged_eq, fieldChanged_eq]
  cases h1 : (normList p.chains == normList q.chains) <;>
    cases h2 : (normList p.methods == normList q.methods) <;>
      cases h3 : (normList p.events == normList q.events) <;>
        simp [bne, h1, h2, h3]

theorem someIdx_zip {α β : Type} (g : α → β → Bool) (d : β) (full : List β) :
    ∀ (l : List α) (m : List β) (k : Nat), full.drop k = m → l.length = m.length →
      someIdx (fun p i => g p (full.getD i d)) l k =
        (l.zip m).any (fun pq => g pq.1 pq.2) := by
  intro l
  induction l with
  | nil => intro m k _ _; rfl
  | cons c l ih =>
    intro m k hm hlen
    cases m with
    | nil => exact absurd hlen (by simp)
    | cons q m' =>
      have hget : full.get? k = some q := by
        rw [get?_eq_head?_drop, hm]; rfl
      have hgetD : full.getD k d = q := by
        rw [List.getD_eq_getD_get?, hget]; rfl
      have hdrop : full.drop (k + 1) = m' := drop_cons_succ hm
      have hlen' : l.length = m'.length := by simpa using hlen
      rw [show someIdx (fun p i => g p (full.getD i d)) (c :: l) k
            = (g c (full.getD k d) ||
               someIdx (fun p i => g p (full.getD i d)) l (k + 1)) from rfl,
         hgetD, ih m' (k + 1) hdrop hlen']
      simp [List.any_cons]

theorem permissionsChanged_eq (old new' : List DappPermissions) :
    permissionsChangedCode old new' = permissionsDifferSpec old new' := by
  by_cases h : old.length = new'.length
  · rw [permissionsChangedCode, permissionsDifferSpec,
       someIdx_zip (fun p q => permChangedAt p q) ⟨none, none, none⟩ new' old new' 0 rfl h]
    simp only [permChangedAt_eq]
  · have hb : (old.length != new'.length) = true := by simp [bne, h]
    rw [permissionsChangedCode, permissionsDifferSpec, hb]
    rfl

theorem accountsChanged_eq (old new' : List String) :
    accountsChangedCode old new' = (old != new') := by
  rw [accountsChangedCode, someIdx_getNe new' old new' 0 rfl, lenNe_or_prefixMismatch]

/-! ## Helper lemmas: storage and registry -/

theorem getItem_removeItem (st : List (String × String)) (k : String) :
    getItem (removeItem st k) k = none := by
  rw [getItem]
  have hfind : (removeItem st k).find? (fun e => e.1 == k) = none := by
    rw [List.find?_eq_none]
    intro x hx
    have hmem := List.of_mem_filter hx
    simp only [decide_eq_true_eq] at hmem
    simp [hmem]
  rw [hfind]
  rfl

theorem addHandler_nodup {r : EventHandlers} (hr : r.handlers.Nodup) (h : Nat) :
    (r.addHandler h).handlers.Nodup := by
  rw [EventHandlers.addHandler]
  by_cases hm : h ∈ r.handlers
  · simpa [hm] using hr
  · simp only [hm, if_false]
    rw [List.nodup_append]
    refine ⟨hr, List.nodup_singleton h, ?_⟩
    intro a ha hmem
    rw [List.mem_singleton] at hmem
    exact hm (hmem ▸ ha)

theorem removeHandler_nodup {r : EventHandlers} (hr : r.handlers.Nodup) (h : Nat) :
    (r.removeHandler h).handlers.Nodup := by
  rw [EventHandlers.removeHandler]
  exact hr.filter _

theorem buildRegistry_nodup (ops : List RegOp) : (buildRegistry ops).handlers.Nodup := by
  rw [buildRegistry]
  have main : ∀ (l : List RegOp) (r : EventHandlers), r.handlers.Nodup →
      (l.foldl applyRegOp r).handlers.Nodup := by
    intro l
    induction l with
    | nil => intro r hr; exact hr
    | cons op l ih =>
      intro r hr
      rw [List.foldl_cons]
      cases op with
      | add h => exact ih _ (addHandler_nodup hr h)
      | remove h => exact ih _ (removeHandler_nodup hr h)
  exact main ops ⟨[]⟩ (List.nodup_nil)

/-! ## Helper lemmas: detection poll -/

theorem pollLoop_first_absent (present : Nat → Bool) (t : Int)
    (ht : t ≤ 0) (hp : present 1 = false) :
    pollLoop present t 1 = (1, false) := by
  rw [pollLoop]
  rw [if_neg (by simp [hp]), if_pos (by omega)]

theorem pollLoop_first_present (present : Nat → Bool) (t : Int)
    (hp : present 1 = true) :
    pollLoop present t 1 = (1, true) := by
  rw [pollLoop]
  simp [hp]

theorem pollTicks_pos (t : Int) : 1 ≤ pollTicks t := by
  rw [pollTicks]
  split
  · exact le_refl 1
  · omega

theorem pollLoop_never (t : Int) :
    ∀ k : Nat, pollLoop (fun _ => false) t k = (k + pollTicks t - 1, false) := by
  induction t using pollTicks.induct with
  | case1 t h =>
    intro k
    rw [pollLoop]
    rw [if_neg (by simp), if_pos (by omega), pollTicks, if_pos h]
    simp
  | case2 t h ih =>
    intro k
    rw [pollLoop]
    rw [if_neg (by simp), if_neg (by omega), ih (k + 1)]
    conv_rhs => rw [pollTicks]
    rw [if_neg h]
    have h1 := pollTicks_pos (t - 10)
    simp only [Prod.mk.injEq, and_true]
    omega

theorem pollLoop_fst_le (present : Nat → Bool) (t : Int) :
    ∀ k : Nat, (pollLoop present t k).1 ≤ k + pollTicks t - 1 := by
  induction t using pollTicks.induct with
  | case1 t h =>
    intro k
    rw [pollLoop]
    have h1 := pollTicks_pos t
    cases hp : present k
    · rw [if_neg (by simp [hp]), if_pos (by omega)]
      show k ≤ k + pollTicks t - 1
      omega
    · rw [if_pos (by simp [hp])]
      show k ≤ k + pollTicks t - 1
      omega
  | case2 t h ih =>
    intro k
    rw [pollLoop]
    have h1 := pollTicks_pos (t - 10)
    have h2 := ih (k + 1)
    cases hp : present k
    · rw [if_neg (by simp [hp]), if_neg (by omega), pollTicks, if_neg h]
      omega
    · rw [if_pos (by simp [hp]), pollTicks, if_neg h]
      show k ≤ k + (1 + pollTicks (t - 10)) - 1
      omega

/-! ## Helper lemmas: lifecycle invariant -/

theorem step_inv {scope : String} {s t : ClientState}
    (hs : Step scope s t) (ih : ClientInv s) : ClientInv t := by
  obtain ⟨ihStart, ihReady⟩ := ih
  cases hs with
  | initNoWallet hp =>
    obtain ⟨h1, h2, h3⟩ := ihStart hp
    refine ⟨fun hc => (nomatch hc), fun _ => ⟨fun hc => ?_, fun hc => ?_⟩⟩
    · rw [show ({ s with phase := .ready } : ClientState).session = s.session
            from rfl, h3] at hc
      cases hc
    · rw [show ({ s with phase := .ready } : ClientState).subscribed = s.subscribed
            from rfl, h2] at hc
      cases hc
  | initWalletNoStored hp _ =>
    exact ⟨fun hc => (nomatch hc), fun _ => ⟨fun _ => rfl, fun _ => rfl⟩⟩
  | initStoredBegin sid hp _ =>
    exact ⟨fun hc => (nomatch hc), fun hc => (nomatch hc)⟩
  | initSessionResponse r hp =>
    exact ⟨fun hc => (nomatch hc), fun _ => ⟨fun _ => rfl, fun _ => rfl⟩⟩
  | pushSessionUpdated ns hsub =>
    refine ⟨fun hc => ?_, fun hc => ?_⟩
    · obtain ⟨_, h2, _⟩ := ihStart hc
      rw [h2] at hsub
      cases hsub
    · have hr := (ihReady hc).2 hsub
      exact ⟨fun _ => hr, fun _ => hr⟩
  | pushSessionClosed hsub =>
    refine ⟨fun hc => ?_, fun hc => ?_⟩
    · obtain ⟨_, h2, _⟩ := ihStart hc
      rw [h2] at hsub
      cases hsub
    · have hr := (ihReady hc).2 hsub
      refine ⟨fun hc2 => ?_, fun _ => hr⟩
      rw [show ((onSessionClosed scope s).1).session = none from rfl] at hc2
      cases hc2
  | connectDone ns hp hrpc =>
    refine ⟨fun hc => ?_, fun _ => ⟨fun _ => hrpc, fun _ => hrpc⟩⟩
    · have hc' : s.phase = .start := hc
      rw [hp] at hc'
      cases hc'
  | disconnectDone hp =>
    exact ⟨ihStart, ihReady⟩

theorem reachable_inv {scope : String} {init : List (String × String)} {st : ClientState}
    (h : Reachable scope init st) : ClientInv st := by
  induction h with
  | base =>
    exact ⟨fun _ => ⟨rfl, rfl, rfl⟩, fun hp => by cases hp⟩
  | step _ hs ih =>
    exact step_inv hs ih

theorem execute_shape (s : ClientState) (chan : Channel) (ops : List Operation) :
    AzguardClient.execute s chan ops = ([], .error .notInstalled) ∨
    AzguardClient.execute s chan ops = ([], .error .notConnected) ∨
    ∃ sess, s.session = some sess ∧
      AzguardClient.execute s chan ops
        = ([Request.executeReq sess.id ops], .ok (chan sess.id ops)) := by
  cases hr : s.rpc with
  | false => exact Or.inl (by simp [AzguardClient.execute, hr])
  | true =>
    cases hs : s.session with
    | none => exact Or.inr (Or.inl (by simp [AzguardClient.execute, hr, hs]))
    | some sess =>
      exact Or.inr (Or.inr ⟨sess, rfl, by simp [AzguardClient.execute, hr, hs]⟩)

theorem pollTicks_bracket (t : Int) (ht : 0 < t) :
    t ≤ 10 * (pollTicks t : Int) ∧ 10 * (pollTicks t : Int) < t + 10 := by
  induction t using pollTicks.induct with
  | case1 t h =>
    rw [pollTicks, if_pos h]
    constructor <;> simp <;> omega
  | case2 t h ih =>
    have ht' : (0 : Int) < t - 10 := by omega
    obtain ⟨ih1, ih2⟩ := ih ht'
    rw [pollTicks, if_neg h]
    push_cast at *
    constructor <;> omega

/-! ## Claim theorems -/

/-- C7: `isCompatible` is a pure function returning true iff the first two
dot-separated segments of the remote version are each string-equal to the
corresponding segment of the client's own version (no numeric coercion,
any further segments ignored); for client version 1.2.0,
`isCompatible("1.2.9")` is true, and for client version 1.3.0 it is
false. -/
theorem C7_isCompatible_segments :
    (∀ clientVersion version : String,
      isCompatible clientVersion version = true ↔
        ((jsSplit version).get? 0 = (jsSplit clientVersion).get? 0 ∧
         (jsSplit version).get? 1 = (jsSplit clientVersion).get? 1)) ∧
    isCompatible "1.2.0" "1.2.9" = true ∧
    isCompatible "1.3.0" "1.2.9" = false := by
  refine ⟨fun c v => ?_, by decide, by decide⟩
  simp [isCompatible]

/-- C7 witness: the segment characterisation applied at a concrete pair. -/
theorem C7_isCompatible_segments_witness : isCompatible "9.9" "9.9.1" = true :=
  (C7_isCompatible_segments.1 "9.9" "9.9.1").mpr (by decide)

/-- C5: for every registry built by add/remove calls and every payload,
dispatch invokes exactly the registered handler list (in particular each
handler exactly once — a double-add is delivered once by set membership),
and the invocation sequence does not depend on the handlers' outcomes, so a
throwing handler never prevents a sibling handler from being invoked and
dispatch itself returns a total trace in place of a propagated
exception. -/
theorem C5_dispatch_isolation :
    ∀ (ops : List RegOp) (P E : Type) (behavior : Nat → P → Except E Unit) (payload : P),
      (((buildRegistry ops).dispatch behavior payload).map Prod.fst
          = (buildRegistry ops).handlers) ∧
      (∀ h, h ∈ (buildRegistry ops).handlers →
        (((buildRegistry ops).dispatch behavior payload).map Prod.fst).count h = 1) := by
  intro ops P E behavior payload
  have hmap : ((buildRegistry ops).dispatch behavior payload).map Prod.fst
      = (buildRegistry ops).handlers := by
    rw [EventHandlers.dispatch]
    induction (buildRegistry ops).handlers with
    | nil => rfl
    | cons a l ih => simp only [List.map_cons, ih]
  refine ⟨hmap, fun h hh => ?_⟩
  rw [hmap]
  exact List.count_eq_one_of_mem (buildRegistry_nodup ops) hh

/-- C5 witness: handler 1 added twice and throwing; the invocation trace is
still exactly [1, 2]. -/
theorem C5_dispatch_isolation_witness :
    ((buildRegistry [RegOp.add 1, RegOp.add 2, RegOp.add 1]).dispatch
      (fun h _ => if h = 1 then Except.error "boom" else Except.ok ()) "payload").map Prod.fst
      = [1, 2] :=
  ((C5_dispatch_isolation [RegOp.add 1, RegOp.add 2, RegOp.add 1] String String
      (fun h _ => if h = 1 then Except.error "boom" else Except.ok ()) "payload").1).trans
    (by decide)

/-- C6: execute fails with the "not installed" error when no channel is
bound and with the "not connected" error when a channel is bound but no
session is held — both without issuing any channel request — and otherwise
issues exactly one execute request carrying the current session id and the
full ordered batch, returning the channel's result batch unchanged. -/
theorem C6_execute_contract :
    ∀ (s : ClientState) (chan : Channel) (ops : List Operation),
      (s.rpc = false →
        AzguardClient.execute s chan ops = ([], .error .notInstalled)) ∧
      (s.rpc = true → s.session = none →
        AzguardClient.execute s chan ops = ([], .error .notConnected)) ∧
      (∀ sess, s.rpc = true → s.session = some sess →
        AzguardClient.execute s chan ops
          = ([Request.executeReq sess.id ops], .ok (chan sess.id ops))) := by
  intro s chan ops
  refine ⟨fun h => ?_, fun h hn => ?_, fun sess h hs => ?_⟩
  · simp [AzguardClient.execute, h]
  · simp [AzguardClient.execute, h, hn]
  · simp [AzguardClient.execute, h, hs]

/-- C6 witness: a connected state issues the execute request and passes the
result batch through. -/
theorem C6_execute_contract_witness :
    AzguardClient.execute ⟨.ready, true, true, some sessA, []⟩
        (fun _ _ => [OperationResult.skipped]) []
      = ([Request.executeReq "sid-1" []], .ok [OperationResult.skipped]) :=
  (C6_execute_contract ⟨.ready, true, true, some sessA, []⟩
    (fun _ _ => [OperationResult.skipped]) []).2.2 sessA rfl rfl

/-- C8: disconnect is a silent no-op (no channel request, state unchanged)
when no session is held; in every reachable post-init state holding a
session it issues exactly one close_session request for the current session
id and leaves the in-memory session field — hence the derived
connected/accounts/permissions values — and the persisted storage
unchanged (the returned state is the input state itself). -/
theorem C8_disconnect_frame :
    (∀ s : ClientState, s.session = none →
      AzguardClient.disconnect s = some ([], s)) ∧
    (∀ (scope : String) (init : List (String × String)) (s : ClientState) (sess : DappSession),
      Reachable scope init s → s.phase = .ready → s.session = some sess →
      AzguardClient.disconnect s = some ([Request.closeSessionReq sess.id], s)) := by
  constructor
  · intro s h
    simp [AzguardClient.disconnect, h]
  · intro scope init s sess hr hp hs
    have hinv := (reachable_inv hr).2 hp
    have hrpc : s.rpc = true := hinv.1 (by rw [hs]; rfl)
    simp [AzguardClient.disconnect, hs, hrpc]

/-- C8 witness: a reachable connected state (fresh storage, wallet found
without a stored session, then a connect round-trip). -/
theorem C8_disconnect_frame_witness :
    AzguardClient.disconnect
        ⟨.ready, true, true, some sessA, [("azguard:session:w", "sid-1")]⟩
      = some ([Request.closeSessionReq "sid-1"],
          ⟨.ready, true, true, some sessA, [("azguard:session:w", "sid-1")]⟩) :=
  C8_disconnect_frame.2 "w" [] _ sessA
    (Reachable.step
      (Reachable.step Reachable.base
        (Step.initWalletNoStored ⟨.start, false, false, none, []⟩ rfl rfl))
      (Step.connectDone ⟨.ready, true, true, none, []⟩ sessA rfl rfl))
    rfl rfl

/-- C4: a session_closed push performs exactly: dispatch the disconnected
event (whose subscribers observe the pre-clear connected = true), then
clear the in-memory session (connected false, accounts and permissions
empty), then remove the persisted storage key for the client's scope. -/
theorem C4_sessionClosed_order :
    ∀ (scope : String) (s : ClientState) (sess : DappSession), s.session = some sess →
      (onSessionClosed scope s).2
          = [Event.disconnected true, Event.sessionCleared,
             Event.storageRemoved (sessionKey scope)] ∧
      AzguardClient.connected (onSessionClosed scope s).1 = false ∧
      AzguardClient.accounts (onSessionClosed scope s).1 = [] ∧
      AzguardClient.permissions (onSessionClosed scope s).1 = [] ∧
      getItem (onSessionClosed scope s).1.storage (sessionKey scope) = none ∧
      (onSessionClosed scope s).1
          = { s with session := none,
                     storage := removeItem s.storage (sessionKey scope) } := by
  intro scope s sess hs
  have hc : AzguardClient.connected s = true := by
    rw [AzguardClient.connected, hs]
    rfl
  refine ⟨?_, rfl, rfl, rfl, ?_, rfl⟩
  · rw [show (onSessionClosed scope s).2
          = [Event.disconnected (AzguardClient.connected s), Event.sessionCleared,
             Event.storageRemoved (sessionKey scope)] from rfl, hc]
  · exact getItem_removeItem s.storage (sessionKey scope)

/-- C4 witness: the push applied to a concrete connected state with the key
persisted. -/
theorem C4_sessionClosed_order_witness :
    (onSessionClosed "default"
        ⟨.ready, true, true, some sessA, [("azguard:session:default", "sid-1")]⟩).2
      = [Event.disconnected true, Event.sessionCleared,
         Event.storageRemoved (sessionKey "default")] :=
  (C4_sessionClosed_order "default"
    ⟨.ready, true, true, some sessA, [("azguard:session:default", "sid-1")]⟩ sessA rfl).1

/-- C3: a session_updated push replaces the stored session unconditionally;
the permissions-changed event fires, carrying the new permission list, iff
the old and new permission lists differ positionally (lengths differ, or at
some index the chain / method / event lists differ element-wise in order),
the accounts-changed event fires, carrying the new account list, iff the
account lists differ element-wise in order, and nothing else is dispatched;
both payloads are read off the already-replaced state. -/
theorem C3_sessionUpdated_reconciliation :
    ∀ (s : ClientState) (ns : DappSession),
      (onSessionUpdated s ns).1 = { s with session := some ns } ∧
      (Event.permissionsChanged ns.permissions ∈ (onSessionUpdated s ns).2 ↔
        permissionsDifferSpec (AzguardClient.permissions s) ns.permissions = true) ∧
      (Event.accountsChanged ns.accounts ∈ (onSessionUpdated s ns).2 ↔
        AzguardClient.accounts s ≠ ns.accounts) ∧
      (∀ e ∈ (onSessionUpdated s ns).2,
        e = Event.permissionsChanged ns.permissions ∨
        e = Event.accountsChanged ns.accounts) := by
  intro s ns
  have hevents : (onSessionUpdated s ns).2
      = (if permissionsChangedCode (AzguardClient.permissions s) ns.permissions
         then [Event.permissionsChanged ns.permissions] else []) ++
        (if accountsChangedCode (AzguardClient.accounts s) ns.accounts
         then [Event.accountsChanged ns.accounts] else []) := rfl
  refine ⟨rfl, ?_, ?_, ?_⟩
  · rw [hevents, permissionsChanged_eq, accountsChanged_eq]
    cases hpd : permissionsDifferSpec (AzguardClient.permissions s) ns.permissions <;>
      cases had : (AzguardClient.accounts s != ns.accounts) <;>
        simp [hpd, had]
  · rw [hevents, permissionsChanged_eq, accountsChanged_eq]
    by_cases hacc : AzguardClient.accounts s = ns.accounts
    · have had : (AzguardClient.accounts s != ns.accounts) = false := by simp [hacc]
      cases hpd : permissionsDifferSpec (AzguardClient.permissions s) ns.permissions <;>
        simp [hpd, had, hacc]
    · have had : (AzguardClient.accounts s != ns.accounts) = true := by simp [hacc]
      cases hpd : permissionsDifferSpec (AzguardClient.permissions s) ns.permissions <;>
        simp [hpd, had, hacc]
  · rw [hevents]
    intro e he
    cases hpd : permissionsChangedCode (AzguardClient.permissions s) ns.permissions <;>
      cases had : accountsChangedCode (AzguardClient.accounts s) ns.accounts <;>
        rw [hpd, had] at he <;> simp at he <;> simp [he]

/-- C3 witness: old permission list of length 1, new of length 0 — the
permissions-changed event fires with the new (empty) list. -/
theorem C3_sessionUpdated_reconciliation_witness :
    Event.permissionsChanged sessB.permissions ∈ (onSessionUpdated stA sessB).2 :=
  (C3_sessionUpdated_reconciliation stA sessB).2.1.mpr (by decide)

/-- C10: account resolution is endsWith suffix matching taking the first
match in list order; every string ends with the empty suffix, so with a
non-empty account list a request with from = "" resolves to the first
account, a shared suffix resolves to the first matching account, and
neither aztec_call nor aztec_sendTransaction can then fail with the
"Unauthorized account" error. -/
theorem C10_suffix_resolution :
    (∀ s : String, jsEndsWith s "" = true) ∧
    (∀ (a : String) (rest : List String), resolveAccount (a :: rest) "" = some a) ∧
    (∀ (l1 l2 : List String) (a suffix : String),
      (∀ x ∈ l1, jsEndsWith x suffix = false) → jsEndsWith a suffix = true →
      resolveAccount (l1 ++ a :: l2) suffix = some a) ∧
    (∀ (s : ClientState) (chan : Channel) (calls : List SerializedFunctionCall),
      AzguardClient.accounts s ≠ [] →
      (aztec_call s chan "" calls).2 ≠ .error .unauthorized) ∧
    (∀ (s : ClientState) (chan : Channel) (calls : List SerializedFunctionCall)
        (aw : List AuthWitness),
      AzguardClient.accounts s ≠ [] →
      (aztec_sendTransaction s chan "" calls aw).2 ≠ .error .unauthorized) := by
  have hempty : ∀ s : String, jsEndsWith s "" = true := by
    intro s
    simp [jsEndsWith, List.isSuffixOf]
  have hhead : ∀ (a : String) (rest : List String), resolveAccount (a :: rest) "" = some a :=
    fun a rest => List.find?_cons_of_pos rest (hempty a)
  have hfirst : ∀ (l1 l2 : List String) (a suffix : String),
      (∀ x ∈ l1, jsEndsWith x suffix = false) → jsEndsWith a suffix = true →
      resolveAccount (l1 ++ a :: l2) suffix = some a := by
    intro l1
    induction l1 with
    | nil => intro l2 a suffix _ ha; exact List.find?_cons_of_pos _ ha
    | cons x l1 ih =>
      intro l2 a suffix hl ha
      rw [List.cons_append, resolveAccount,
         List.find?_cons_of_neg _ (by simp [hl x (by simp)])]
      exact ih l2 a suffix (fun y hy => hl y (by simp [hy])) ha
  have hcall : ∀ (s : ClientState) (chan : Channel) (calls : List SerializedFunctionCall),
      AzguardClient.accounts s ≠ [] →
      (aztec_call s chan "" calls).2 ≠ .error .unauthorized := by
    intro s chan calls hne
    cases hacc : AzguardClient.accounts s with
    | nil => exact absurd hacc hne
    | cons a rest =>
      have hres : resolveAccount (AzguardClient.accounts s) "" = some a := by
        rw [hacc]; exact hhead a rest
      rw [aztec_call, hres]
      rcases execute_shape s chan
          [Operation.simulateViews a
            (calls.map (fun x => OpAction.encodedCall x.toAddr x.selector x.args))] with
        hex | hex | ⟨sess, _, hex⟩
      · simp [hex]
      · simp [hex]
      · cases hh : (chan sess.id
            [Operation.simulateViews a
              (calls.map (fun x => OpAction.encodedCall x.toAddr x.selector x.args))]).head? with
        | none => simp [hex, hh]
        | some r => cases r <;> simp [hex, hh]
  have hsend : ∀ (s : ClientState) (chan : Channel) (calls : List SerializedFunctionCall)
      (aw : List AuthWitness),
      AzguardClient.accounts s ≠ [] →
      (aztec_sendTransaction s chan "" calls aw).2 ≠ .error .unauthorized := by
    intro s chan calls aw hne
    cases hacc : AzguardClient.accounts s with
    | nil => exact absurd hacc hne
    | cons a rest =>
      have hres : resolveAccount (AzguardClient.accounts s) "" = some a := by
        rw [hacc]; exact hhead a rest
      rw [aztec_sendTransaction, hres]
      rcases execute_shape s chan
          [Operation.sendTransaction a
            (aw.map (fun x =>
              OpAction.addPrivateAuthwit x.caller x.action.toAddr x.action.selector x.action.args) ++
             calls.map (fun x => OpAction.encodedCall x.toAddr x.selector x.args))] with
        hex | hex | ⟨sess, _, hex⟩
      · simp [hex]
      · simp [hex]
      · cases hh : (chan sess.id
            [Operation.sendTransaction a
              (aw.map (fun x =>
                OpAction.addPrivateAuthwit x.caller x.action.toAddr x.action.selector
                  x.action.args) ++
               calls.map (fun x => OpAction.encodedCall x.toAddr x.selector x.args))]).head? with
        | none => simp [hex, hh]
        | some r => cases r <;> simp [hex, hh]
  exact ⟨hempty, hhead, hfirst, hcall, hsend⟩

/-- C10 witness: with one approved account, calling with from = "" does not
fail with the unauthorized error. -/
theorem C10_suffix_resolution_witness :
    (aztec_call stA chanA "" [callA]).2 ≠ .error .unauthorized :=
  C10_suffix_resolution.2.2.2.1 stA chanA [callA] (by decide)

/-- C1 (amended): for an aztec_call request on a client with a bound
channel and held session, whose from field resolves by suffix match to an
account, and whose single simulate_views operation result has status "ok",
the adapter returns the ENCODED per-call result array of that result (the
`encoded` field — one encoded value array per supplied call as reported by
the wallet), not the decoded one. -/
theorem C1_aztecCall_returns_encoded :
    ∀ (s : ClientState) (chan : Channel) (fromAddr : String)
      (calls : List SerializedFunctionCall) (sess : DappSession)
      (account : String) (r : SimulateViewsResult),
      s.rpc = true → s.session = some sess →
      resolveAccount (AzguardClient.accounts s) fromAddr = some account →
      chan sess.id [Operation.simulateViews account
          (calls.map (fun x => OpAction.encodedCall x.toAddr x.selector x.args))]
        = [OperationResult.ok (ResultPayload.simulate r)] →
      (aztec_call s chan fromAddr calls).2 = .ok (some r.encoded) := by
  intro s chan fromAddr calls sess account r hrpc hsess hres hchan
  have hex : AzguardClient.execute s chan
      [Operation.simulateViews account
        (calls.map (fun x => OpAction.encodedCall x.toAddr x.selector x.args))]
      = ([Request.executeReq sess.id
            [Operation.simulateViews account
              (calls.map (fun x => OpAction.encodedCall x.toAddr x.selector x.args))]],
         .ok [OperationResult.ok (ResultPayload.simulate r)]) := by
    simp [AzguardClient.execute, hrpc, hsess, hchan]
  rw [aztec_call, hres]
  simp [hex, payloadEncoded]

/-- C1 counterexample: the wallet reports encoded [["enc"]] and decoded
[["dec"]]; the adapter returns the encoded array, so it does not return the
decoded-per-call result array the claim describes. -/
theorem C1_aztecCall_counterexample :
    (aztec_call stA chanA "0xabc" [callA]).2 = .ok (some [["enc"]]) ∧
    (aztec_call stA chanA "0xabc" [callA]).2 ≠ .ok (some [["dec"]]) := by
  constructor
  · decide
  · decide

/-- C1 witness: the amended theorem applied at the concrete state and
channel of the counterexample. -/
theorem C1_aztecCall_returns_encoded_witness :
    (aztec_call stA chanA "0xabc" [callA]).2
      = .ok (some (⟨[["enc"]], [["dec"]]⟩ : SimulateViewsResult).encoded) :=
  C1_aztecCall_returns_encoded stA chanA "0xabc" [callA] sessA "aztec:1337:0xabc"
    ⟨[["enc"]], [["dec"]]⟩ rfl rfl (by decide) rfl

/-- C2 (amended): a timeout of 0 or less resolves on the very first tick —
absent when the object is absent at that tick, with no second presence
check (the poll's result is already fixed at tick 1), and present when the
object is there, since the first tick does check presence once.  The poll
always resolves, in at most pollTicks(timeout) ticks; when the object never
appears it resolves absent at exactly tick pollTicks(timeout), and for
positive timeouts 10 * pollTicks(timeout) is the timeout rounded UP (not
down) to the nearest multiple of the 10ms tick. -/
theorem C2_poll_rounding :
    (∀ (present : Nat → Bool) (t : Int), t ≤ 0 → present 1 = false →
      getAzguardObject present t = (1, false)) ∧
    (∀ (present : Nat → Bool) (t : Int), present 1 = true →
      getAzguardObject present t = (1, true)) ∧
    (∀ (present : Nat → Bool) (t : Int), (getAzguardObject present t).1 ≤ pollTicks t) ∧
    (∀ t : Int, getAzguardObject (fun _ => false) t = (pollTicks t, false)) ∧
    (∀ t : Int, 0 < t →
      t ≤ 10 * (pollTicks t : Int) ∧ 10 * (pollTicks t : Int) < t + 10) := by
  refine ⟨?_, ?_, ?_, ?_, pollTicks_bracket⟩
  · intro p t ht hp
    exact pollLoop_first_absent p t ht hp
  · intro p t hp
    exact pollLoop_first_present p t hp
  · intro p t
    have h1 := pollLoop_fst_le p t 1
    have h2 := pollTicks_pos t
    rw [getAzguardObject]
    omega
  · intro t
    rw [getAzguardObject, pollLoop_never t 1]
    have := pollTicks_pos t
    simp only [Prod.mk.injEq, and_true]
    omega

/-- C2 counterexample: with timeout 25 and the object never appearing, the
poll resolves at tick 3, i.e. after 30ms — more than the 20ms that
rounding the timeout DOWN to the nearest multiple of the 10ms tick
predicts. -/
theorem C2_poll_rounding_counterexample :
    getAzguardObject (fun _ => false) 25 = (3, false) ∧
    ¬(10 * (getAzguardObject (fun _ => false) 25).1 ≤ 20) := by
  have ht : pollTicks 25 = 3 := by
    rw [pollTicks, if_neg (by norm_num), pollTicks, if_neg (by norm_num),
       pollTicks, if_pos (by norm_num)]
  have h : getAzguardObject (fun _ => false) 25 = (3, false) := by
    rw [getAzguardObject, pollLoop_never 25 1, ht]
  exact ⟨h, by rw [h]; norm_num⟩

/-- C2 witness: a non-positive timeout with the object absent resolves
absent on the first tick. -/
theorem C2_poll_rounding_witness :
    getAzguardObject (fun _ => false) (-5) = (1, false) :=
  C2_poll_rounding.1 (fun _ => false) (-5) (by norm_num) rfl

/-- C9 counterexample: a reachable client state that holds a session while
no RPC channel handle is bound — a session_updated push delivered during
init's get_session await window, after the handlers were subscribed but
before `this.#rpc = client` ran. -/
theorem C9_counterexample :
    Reachable "default" initStorageC9 badStateC9 ∧
    badStateC9.session = some sessB ∧ badStateC9.rpc = false := by
  refine ⟨?_, rfl, rfl⟩
  have h1 : Step "default" ⟨.start, false, false, none, initStorageC9⟩
      ⟨.awaiting, false, true, none, initStorageC9⟩ :=
    Step.initStoredBegin ⟨.start, false, false, none, initStorageC9⟩ "sid-0" rfl (by decide)
  have h2 : Step "default" ⟨.awaiting, false, true, none, initStorageC9⟩ badStateC9 :=
    Step.pushSessionUpdated ⟨.awaiting, false, true, none, initStorageC9⟩ sessB rfl
  exact Reachable.step (Reachable.step Reachable.base h1) h2

/-- C9 (amended): in every reachable state in which create has resolved
(phase ready) — the only states in which the consumer holds the client and
can call disconnect — a held session implies a bound RPC channel, and
disconnect's unchecked channel dereference therefore never accesses an
absent channel (disconnect never crashes).  Mid-init, between the push
subscription and the #rpc assignment, a session_updated push can hold a
session without a bound channel (see the counterexample), but init's
completion overwrites the session and binds the channel before the
instance is handed out. -/
theorem C9_ready_session_implies_rpc :
    ∀ (scope : String) (init : List (String × String)) (st : ClientState),
      Reachable scope init st → st.phase = .ready →
      (∀ sess, st.session = some sess → st.rpc = true) ∧
      AzguardClient.disconnect st ≠ none := by
  intro scope init st hr hp
  have hinv := (reachable_inv hr).2 hp
  constructor
  · intro sess hs
    exact hinv.1 (by rw [hs]; rfl)
  · cases hs : st.session with
    | none => simp [AzguardClient.disconnect, hs]
    | some sess =>
      have hrpc : st.rpc = true := hinv.1 (by rw [hs]; rfl)
      simp [AzguardClient.disconnect, hs, hrpc]

/-- C9 witness: a reachable connected ready state, on which disconnect does
not crash. -/
theorem C9_ready_session_implies_rpc_witness :
    AzguardClient.disconnect
        (⟨.ready, true, true, some sessA, [("azguard:session:w", "sid-1")]⟩ : ClientState)
      ≠ none :=
  (C9_ready_session_implies_rpc "w" [] _
    (Reachable.step
      (Reachable.step Reachable.base
        (Step.initWalletNoStored ⟨.start, false, false, none, []⟩ rfl rfl))
      (Step.connectDone ⟨.ready, true, true, none, []⟩ sessA rfl rfl))
    rfl).2
